import Mathlib

/-!
Shallow embedding of the orchestration core of the `llm_trader` repository
(TypeScript sources `src/agent.ts`, the `TradingService` class and the
sibling agent variant), together with theorems settling the frozen claims
about its specification.

Conventions of the embedding:
* JavaScript numbers are modelled as exact rationals (`ℚ`); the places where
  IEEE-754 special values (`Infinity`, `NaN`) decide control flow are
  modelled explicitly (see `CagrOut`).
* `Math.round(x * 100) / 100` is `round2` below (JS `Math.round` rounds
  half-way cases toward `+∞`, i.e. `⌊x + 1/2⌋`).
* A remote call that can throw is modelled by an explicit result value
  (`FetchResult`); the pure function then mirrors the `try`/`catch`
  structure of the source.
* Side effects that the claims are about (order submission, writing a
  quarantine backup file) are reified into the return value of the
  modelled function, so that "no order is submitted" is literally
  "the list of created orders is empty".
-/

/-- JS `Math.round(x * 100) / 100`: round to 2 decimal places,
half-way cases toward `+∞`. -/
def round2 (x : ℚ) : ℚ := (⌊x * 100 + 1 / 2⌋ : ℤ) / 100

/-- Result of a remote call that the source wraps in `try`/`catch`:
either the value it produced, or "it threw". -/
inductive FetchResult (α : Type) where
  | ok (a : α)
  | err
  deriving DecidableEq

/-! ## Trades and the reporting P&L computation

From `src/agent.ts`: the `history` entries built by `getPortfolio`
(`{date, type, ticker, shares, price, total}`) and the per-sell P&L block
shared verbatim by `updateReadme` (lines 975–993) and `generateCSVReport`
(lines 1043–1059). -/

/-- One entry of `portfolio.history`.  `side` is the entry's `type` field,
the string `"buy"` or `"sell"`; `date` is the fill timestamp in epoch
milliseconds (`new Date(t.date).getTime()`). -/
structure Trade where
  date : ℕ
  side : String
  ticker : String
  shares : ℚ
  price : ℚ
  total : ℚ

/-- The buy trades a sell is matched against, from
`portfolio.history.filter(t => t.ticker === trade.ticker && t.type === 'buy'
&& new Date(t.date) < new Date(trade.date))`.  (The source then sorts this
list most-recent-first, which does not affect the two sums taken of it.) -/
def buyTradesBefore (history : List Trade) (trade : Trade) : List Trade :=
  history.filter fun t =>
    t.ticker == trade.ticker && t.side == "buy" && decide (t.date < trade.date)

/-- The reporting P&L block for one `sell` trade: returns
`(avgBuyPrice, pnl, pnlPercent)` when at least one prior buy exists,
`none` otherwise (the source leaves `pnlText` / the CSV cells empty). -/
def sellPnl (history : List Trade) (trade : Trade) : Option (ℚ × ℚ × ℚ) :=
  let buyTrades := buyTradesBefore history trade
  if buyTrades.isEmpty then none
  else
    let totalBuyShares := (buyTrades.map Trade.shares).sum
    let totalBuyCost := (buyTrades.map Trade.total).sum
    let avgBuyPrice := if totalBuyShares > 0 then totalBuyCost / totalBuyShares else 0
    let pnl := (trade.price - avgBuyPrice) * trade.shares
    let pnlPercent := if avgBuyPrice > 0 then (trade.price - avgBuyPrice) / avgBuyPrice * 100 else 0
    some (avgBuyPrice, pnl, pnlPercent)

/-! ## Market hours (`isMarketOpen`, `src/agent.ts` lines 1482–1506)

The source derives `dayOfWeek`, `hours`, `minutes` from the current time in
the `America/New_York` timezone; the embedding takes those three numbers as
inputs, plus the `TESTING_MODE === 'true'` override flag. -/

/-- `isMarketOpen`: true 09:30–16:00 ET on weekdays, always true in
testing mode. -/
def isMarketOpen (testingMode : Bool) (dayOfWeek hours minutes : ℕ) : Bool :=
  if testingMode then true
  else if dayOfWeek = 0 ∨ dayOfWeek = 6 then false
  else
    let timeInMinutes := hours * 60 + minutes
    let marketOpen := 9 * 60 + 30
    let marketClose := 16 * 60
    decide (marketOpen ≤ timeInMinutes ∧ timeInMinutes < marketClose)

/-! ## Next market open (`getNextMarketOpen`, `src/agent.ts` lines 1508–1534)

The source always builds "tomorrow at 13:30 UTC" (its fixed stand-in for
09:30 AM ET during EDT) from the current date, then shifts a Saturday by two
days and a Sunday by one day.  A timestamp is modelled as a calendar day
index (days since the Unix epoch, which fell on a Thursday, so
`getDay() = (day + 4) % 7`) plus minutes within the day (UTC). -/

/-- JS `Date.prototype.getDay` for a day index counted from the epoch. -/
def dayOfWeek (day : ℕ) : ℕ := (day + 4) % 7

/-- `getNextMarketOpen`: returns `(day, minutesUTC)` of the computed next
open.  `nowMinutes` (the time of day of the input) is taken as an argument
to reflect the source's signature, but the source never reads the current
time of day — only the current date. -/
def getNextMarketOpen (nowDay nowMinutes : ℕ) : ℕ × ℕ :=
  let tomorrow := nowDay + 1
  let nextOpenDay :=
    if dayOfWeek tomorrow = 6 then tomorrow + 2
    else if dayOfWeek tomorrow = 0 then tomorrow + 1
    else tomorrow
  (nextOpenDay, 13 * 60 + 30)

/-! ## Price resolution

Two implementations exist in the repository:
* `getStockPrice` in `src/agent.ts` (lines 402–414): Alpaca mid price only,
  and it re-throws on any failure (`throw error`);
* the chained `getStockPrice` of the agent variant (and, identically,
  `TradingService.getStockPrice`): Alpaca mid price, then the Yahoo Finance
  last market price, then a mock-price table / random synthetic fallback,
  never throwing.

The environment of one resolution is reified: the Alpaca quote call either
throws or yields a quote whose `BidPrice`/`AskPrice` are truthy (`some
(bid, ask)`) or not (`none`); the Yahoo call either throws or yields
`some price` (a successful response carrying a numeric
`regularMarketPrice`) or `none`; `rand` is the `Math.random()` draw used by
the synthetic fallback. -/

/-- Environment of one price resolution. -/
structure PriceEnv where
  alpacaQuote : FetchResult (Option (ℚ × ℚ))
  yahooPrice : FetchResult (Option ℚ)
  rand : ℚ

/-- JS `String.prototype.toUpperCase` on the ASCII tickers the sources
use: map each lower-case Latin letter to its upper-case counterpart. -/
def toUpperCase (s : String) : String :=
  ⟨s.data.map fun c =>
    if 97 ≤ c.toNat ∧ c.toNat ≤ 122 then Char.ofNat (c.toNat - 32) else c⟩

/-- The `mockPrices` table, keyed by upper-cased ticker. -/
def mockPrices (ticker : String) : Option ℚ :=
  if ticker == "AAPL" then some 224.50
  else if ticker == "GOOGL" then some 175.20
  else if ticker == "MSFT" then some 419.70
  else if ticker == "TSLA" then some 246.80
  else if ticker == "NVDA" then some 126.50
  else if ticker == "XLI" then some 135.40
  else if ticker == "HEI" then some 225.30
  else if ticker == "RCL" then some 160.25
  else if ticker == "NIO" then some 4.25
  else if ticker == "XLP" then some 80.15
  else if ticker == "XLV" then some 135.60
  else if ticker == "XLY" then some 190.25
  else if ticker == "XLF" then some 42.80
  else if ticker == "SPY" then some 550.20
  else none

/-- The chained `getStockPrice` (agent variant lines 290–344 /
`TradingService` lines 42–127).  Every table entry is nonzero, so JS
`mockPrices[t] || (50 + Math.random() * 200)` is `Option.getD`. -/
def getStockPrice (env : PriceEnv) (ticker : String) : ℚ :=
  match env.alpacaQuote with
  | .ok (some (bid, ask)) => round2 ((bid + ask) / 2)
  | _ =>
    -- Alpaca threw (caught and logged) or the quote was falsy: fall through
    match env.yahooPrice with
    | .ok (some price) =>
      if price > 0 then price
      else round2 ((mockPrices (toUpperCase ticker)).getD (50 + env.rand * 200))
    | _ => round2 ((mockPrices (toUpperCase ticker)).getD (50 + env.rand * 200))

/-- The `src/agent.ts` `getStockPrice` (lines 402–414): `invariant` throws
when the quote or a side of it is falsy, and the `catch` re-throws. -/
def getStockPriceMain (alpacaQuote : FetchResult (Option (ℚ × ℚ))) :
    Except Unit ℚ :=
  match alpacaQuote with
  | .ok (some (bid, ask)) => .ok (round2 ((bid + ask) / 2))
  | _ => .error ()

/-! ## Net worth (`calculateNetWorth`, `src/agent.ts` lines 722–746)

`accountValue` is the `getAlpacaAccount()` call's `portfolio_value` (or
"it threw"); on failure the source walks `portfolio.holdings`, adding
`shares * price` only when `shares > 0`, and rounds `cash + total`.
`price` is the (total, per the chained resolver) price lookup. -/

/-- A portfolio as produced by `getPortfolio`: holdings as an association
list ticker ↦ net signed shares. -/
structure Portfolio where
  cash : ℚ
  holdings : List (String × ℚ)
  history : List Trade

/-- `calculateNetWorth`. -/
def calculateNetWorth (accountValue : FetchResult ℚ) (portfolio : Portfolio)
    (price : String → ℚ) : ℚ :=
  match accountValue with
  | .ok v => round2 v
  | .err =>
    let totalHoldingsValue :=
      portfolio.holdings.foldl
        (fun acc h => if h.2 > 0 then acc + h.2 * price h.1 else acc) 0
    round2 (portfolio.cash + totalHoldingsValue)

/-! ## CAGR (`calculateCAGR`)

`TradingService.calculateCAGR(days, currentValue, startValue = 1000)`
(the `src/agent.ts` copy fixes `startValue = 1000`):

```
const years = days / 365;
const cagr = Math.pow(currentValue / startValue, 1 / years) - 1;
```

For `days ≠ 0` the result is the transcendental
`Math.pow(currentValue/startValue, 365/days) - 1`, kept symbolic as
`CagrOut.powExpr base expo` (denoting `Math.pow base expo - 1`).  For
`days = 0`, JS computes `1 / 0 = Infinity` and ECMA-262 `Math.pow(b, +∞)`
is `+∞` when `|b| > 1`, `NaN` when `|b| = 1`, and `+0` when `|b| < 1`
(so the returned `cagr` is `Infinity`, `NaN`, or `-1`); when additionally
`startValue = 0`, `b = currentValue / 0` is `±Infinity` (so `|b| > 1`)
unless `currentValue = 0`, where `0/0 = NaN` and `Math.pow(NaN, +∞) = NaN`. -/

/-- Result of `calculateCAGR`: an exact finite value, `Infinity`, `NaN`,
or the symbolic finite value `Math.pow base expo - 1`. -/
inductive CagrOut where
  | fin (q : ℚ)
  | posInf
  | nan
  | powExpr (base expo : ℚ)
  deriving DecidableEq

/-- `calculateCAGR`. -/
def calculateCAGR (days currentValue startValue : ℚ) : CagrOut :=
  let years := days / 365
  if years = 0 then
    if startValue = 0 then
      if currentValue = 0 then .nan else .posInf
    else
      let b := currentValue / startValue
      if 1 < |b| then .posInf
      else if |b| = 1 then .nan
      else .fin (0 - 1)
  else .powExpr (currentValue / startValue) (1 / years)

/-! ## Retry policy (`withRetry`, `src/agent.ts` lines 1450–1479)

The error object is modelled by its `status` field (absent or a number;
`0` is falsy in the `!status` test) and its `message` (absent, or a
string scanned by `/(\d{3}) status code/`).  One invocation of the wrapped
`fn` per attempt index is modelled by `runs : ℕ → Except JsError α`, and
the `Math.random() * 1000` jitter of attempt `i` by `rand i`.  The waits
the loop performs are accumulated into the result, so the backoff schedule
is part of the value. -/

/-- An error as `withRetry` inspects it. -/
structure JsError where
  status : Option ℕ
  message : Option String
  deriving DecidableEq

/-- Regex `\d`: a decimal digit (code points 48–57). -/
def isDigitChar (c : Char) : Bool := decide (48 ≤ c.toNat ∧ c.toNat ≤ 57)

/-- JS `message.match(/(\d{3}) status code/)` followed by `parseInt` of the
captured group: the first position holding three digits followed by the
literal text `" status code"`; yields the number the three digits spell. -/
def extractStatus : List Char → Option ℕ
  | c1 :: c2 :: c3 :: rest =>
    if isDigitChar c1 && isDigitChar c2 && isDigitChar c3 &&
        decide (rest.take 12 = " status code".toList) then
      some (100 * (c1.toNat - 48) + 10 * (c2.toNat - 48) + (c3.toNat - 48))
    else extractStatus (c2 :: c3 :: rest)
  | _ => none

/-- `let status = error.status; if (!status && error.message) {...}`:
the structured status when truthy, otherwise the status recovered from the
message (a falsy `message` — absent or empty — is never scanned). -/
def effectiveStatus (e : JsError) : Option ℕ :=
  if e.status.getD 0 ≠ 0 then some (e.status.getD 0)
  else
    match e.message with
    | some m => if m ≠ "" then extractStatus m.toList else none
    | none => none

/-- `status === 429 || (status >= 500 && status < 600)` — with a falsy /
unrecovered status the comparison is false. -/
def isRetryable (e : JsError) : Bool :=
  match effectiveStatus e with
  | some s => s == 429 || (decide (500 ≤ s) && decide (s < 600))
  | none => false

/-- Result of `withRetry`: the value returned, or the error thrown out of
the wrapper (`none` models JS throwing `undefined`, which happens only when
`retries = 0` so the loop never runs); `delays` lists the waits performed,
in order. -/
inductive RetryResult (α : Type) where
  | ok (value : α) (delays : List ℚ)
  | thrown (e : Option JsError) (delays : List ℚ)

/-- The `for (let i = 0; i < retries; i++)` loop: `fuel` is the number of
iterations left, `i` the current attempt index, `acc` the waits so far,
`last` the `lastError` variable. -/
def withRetryAux {α : Type} (runs : ℕ → Except JsError α) (delay : ℚ)
    (rand : ℕ → ℚ) : ℕ → ℕ → List ℚ → Option JsError → RetryResult α
  | 0, _, acc, last => .thrown last acc
  | fuel + 1, i, acc, _ =>
    match runs i with
    | .ok v => .ok v acc
    | .error e =>
      if isRetryable e then
        withRetryAux runs delay rand fuel (i + 1)
          (acc ++ [delay * 2 ^ i + rand i]) (some e)
      else .thrown (some e) acc

/-- `withRetry(fn, retries = 5, delay = 2000)`. -/
def withRetry {α : Type} (runs : ℕ → Except JsError α) (retries : ℕ)
    (delay : ℚ) (rand : ℕ → ℚ) : RetryResult α :=
  withRetryAux runs delay rand retries 0 [] none

/-! ## Thread store (`loadThread`)

Modelled from the agent variant (lines 2465–2513), whose checks are a
superset of the `src/agent.ts` copy (lines 845–877; that copy lacks the
reasoning-mismatch check).  A thread item is reduced to the fields the
checks read: its `type` tag, its `callId`, and its `id`.  Reading the file
and parsing are outside the model; the input is the parsed item list.
Writing the `*.corrupted-<timestamp>` backup is reified as a flag on the
result. -/

/-- One parsed thread item, reduced to the fields the checks read:
`itemType` is the item's `type` tag (`"function_call"`,
`"function_call_result"`, `"reasoning"`, or anything else). -/
structure ThreadItem where
  itemType : String
  callId : Option String
  id : Option String
  deriving DecidableEq

/-- The `hasCorruption` predicate: the historical literal call id, or a
`function_call_result` with no `function_call` bearing the same `callId`. -/
def hasCorruption (fullThread : List ThreadItem) : Bool :=
  fullThread.any fun item =>
    item.callId == some "call_en9S0pLVBoYjEcU4hnyuVl5X" ||
    (item.itemType == "function_call_result" &&
      !(fullThread.any fun c =>
        c.callId == item.callId && c.itemType == "function_call"))

/-- JS `String.prototype.startsWith`, on the character data. -/
def strStartsWith (s p : String) : Bool := p.data.isPrefixOf s.data

/-- JS `String.prototype.slice(n)` (drop the first `n` characters), on the
character data. -/
def strDrop (s : String) (n : ℕ) : String := ⟨s.data.drop n⟩

/-- The `hasReasoningMismatch` predicate: a `function_call` whose id starts
with `"fc_"` but with no `reasoning` item whose id is the same id with that
prefix-occurrence replaced by `"rs_"` (JS `id.replace('fc_', 'rs_')`
replaces the first occurrence, which the guard pins to the front, so it
equals `"rs_" ++` the id without its first three characters). -/
def hasReasoningMismatch (fullThread : List ThreadItem) : Bool :=
  let functionCalls := fullThread.filter (·.itemType == "function_call")
  let reasoningItems := fullThread.filter (·.itemType == "reasoning")
  functionCalls.any fun fc =>
    match fc.id with
    | none => false
    | some i =>
      if !(strStartsWith i "fc_") then false
      else
        let expectedReasoningId := "rs_" ++ strDrop i 3
        !(reasoningItems.any fun rs => rs.id == some expectedReasoningId)

/-- Result of `loadThread`: the thread returned, and whether a
`*.corrupted-<timestamp>` backup copy of the raw file was written. -/
structure LoadResult where
  thread : List ThreadItem
  backupWritten : Bool
  deriving DecidableEq

/-- `loadThread` on a successfully read and parsed thread file. -/
def loadThread (fullThread : List ThreadItem) : LoadResult :=
  if hasReasoningMismatch fullThread then ⟨[], true⟩
  else if hasCorruption fullThread then ⟨[], true⟩
  else if fullThread.length > 50 then ⟨[], false⟩
  else ⟨fullThread, false⟩

/-! ## Trade tools (`buyTool`, `sellTool`, `shortSellTool`, `coverShortTool`,
`src/agent.ts` lines 506–679)

Each tool's `execute` is modelled as a pure function of the state it
re-fetches (account / positions) and the freshly resolved price; its result
is the list of orders submitted to `alpaca.createOrder` together with a
flag that is `true` exactly when the tool returned one of its explanatory
rejection strings instead of submitting. -/

/-- The account fields the tools read (`parseFloat`ed). -/
structure Account where
  cash : ℚ
  buying_power : ℚ
  portfolio_value : ℚ

/-- A position as returned by `getAlpacaPositions` (`qty` `parseFloat`ed;
negative = short). -/
structure Position where
  symbol : String
  qty : ℚ

/-- An order as passed to `alpaca.createOrder` (always
`type: 'market', time_in_force: 'gtc'`); `side` is `"buy"` or `"sell"`. -/
structure Order where
  symbol : String
  qty : ℚ
  side : String
  deriving DecidableEq

/-- Orders submitted, and whether the reply was a rejection string. -/
structure ToolOutcome where
  orders : List Order
  rejected : Bool
  deriving DecidableEq

/-- `buyTool.execute`. -/
def buyTool (account : Account) (price : ℚ) (ticker : String) (shares : ℚ) :
    ToolOutcome :=
  let orderValue := shares * price
  if account.buying_power < orderValue then ⟨[], true⟩
  else ⟨[⟨ticker, shares, "buy"⟩], false⟩

/-- `sellTool.execute` (the price is fetched only after validation and only
feeds the confirmation message). -/
def sellTool (positions : List Position) (ticker : String) (shares : ℚ) :
    ToolOutcome :=
  match positions.find? (fun p => p.symbol == ticker) with
  | none => ⟨[], true⟩
  | some position =>
    if position.qty < shares then ⟨[], true⟩
    else ⟨[⟨ticker, shares, "sell"⟩], false⟩

/-- `shortSellTool.execute`. -/
def shortSellTool (account : Account) (price : ℚ) (ticker : String)
    (shares : ℚ) : ToolOutcome :=
  let accountEquity := account.portfolio_value
  let buyingPower := account.buying_power
  if accountEquity < 40000 then ⟨[], true⟩
  else
    let orderValue := shares * price
    if buyingPower < orderValue * 0.5 then ⟨[], true⟩
    else ⟨[⟨ticker, shares, "sell"⟩], false⟩

/-- `coverShortTool.execute`. -/
def coverShortTool (positions : List Position) (ticker : String)
    (shares : ℚ) : ToolOutcome :=
  match positions.find? (fun p => p.symbol == ticker) with
  | none => ⟨[], true⟩
  | some position =>
    if position.qty ≥ 0 then ⟨[], true⟩
    else
      let shortPosition := |position.qty|
      if shares > shortPosition then ⟨[], true⟩
      else ⟨[⟨ticker, shares, "buy"⟩], false⟩

/-! # Theorems -/

/-! ## Claim C1: weighted-average reporting P&L -/

/-- Claim C1, counterexample: for buys of 5@$100 and 5@$120 followed by a
sell of 5@$130, the reporting P&L computation yields `avgBuyPrice = 110`
and `pnl = 100` as claimed, but `pnlPercent = 200/11 ≈ 18.18`, which is
greater than 18 — not `≈ 9.09%` as the claim states. -/
theorem c1_pnl_percent_counterexample :
    sellPnl
      [⟨0, "buy", "TST", 5, 100, 500⟩, ⟨1, "buy", "TST", 5, 120, 600⟩,
       ⟨2, "sell", "TST", 5, 130, 650⟩]
      ⟨2, "sell", "TST", 5, 130, 650⟩ = some (110, 100, 200 / 11) ∧
    (18 : ℚ) < 200 / 11 ∧ ¬((200 : ℚ) / 11 < 10) := by
  refine ⟨?_, by norm_num, by norm_num⟩
  norm_num [sellPnl, buyTradesBefore, List.filter]

/-- Claim C1, amended: buys of 5@$100 and 5@$120 then a sell of 5@$130
yield `avgBuyPrice = 110`, `pnl = 100`, and `pnlPercent = 200/11 ≈ 18.18%`
(the value of the formula `(sell.price - avgBuyPrice)/avgBuyPrice * 100`
over the weighted-average cost basis of all prior same-ticker buys dated
strictly before the sell). -/
theorem c1_weighted_average_pnl :
    sellPnl
      [⟨0, "buy", "TST", 5, 100, 500⟩, ⟨1, "buy", "TST", 5, 120, 600⟩,
       ⟨2, "sell", "TST", 5, 130, 650⟩]
      ⟨2, "sell", "TST", 5, 130, 650⟩ = some (110, 100, 200 / 11) ∧
    |(200 : ℚ) / 11 - 1818 / 100| < 1 / 100 := by
  refine ⟨?_, by rw [abs_sub_lt_iff]; norm_num⟩
  norm_num [sellPnl, buyTradesBefore, List.filter]

/-! ## Claim C5: `calculateCAGR` -/

/-- Claim C5, counterexample: at `days = 0`, `currentValue = 500`,
`startValue = 1000`, the code computes `Math.pow(0.5, Infinity) - 1 = -1`,
not `Infinity`; so `days == 0` does *not* return `Infinity` for every
`currentValue`/`startValue`. -/
theorem c5_cagr_zero_days_counterexample :
    calculateCAGR 0 500 1000 = CagrOut.fin (-1) ∧
    CagrOut.fin (-1) ≠ CagrOut.posInf := by
  refine ⟨?_, by simp⟩
  norm_num [calculateCAGR, abs]

/-- Claim C5, amended: `calculateCAGR` computes
`(currentValue/startValue)^(365/days) - 1` whenever `days ≠ 0` (kept
symbolic as `CagrOut.powExpr`); for `days == 0` exactly, the IEEE-754
result is surfaced as-is, and it is `Infinity` only when
`currentValue > startValue` (for positive values) — it is `-1` when
`currentValue < startValue` and `NaN` when they are equal. -/
theorem c5_cagr_branches :
    (∀ days currentValue startValue : ℚ, days ≠ 0 →
      calculateCAGR days currentValue startValue =
        CagrOut.powExpr (currentValue / startValue) (365 / days)) ∧
    (∀ currentValue startValue : ℚ, 0 < startValue → startValue < currentValue →
      calculateCAGR 0 currentValue startValue = CagrOut.posInf) ∧
    (∀ currentValue startValue : ℚ, 0 < currentValue → currentValue < startValue →
      calculateCAGR 0 currentValue startValue = CagrOut.fin (-1)) ∧
    (∀ startValue : ℚ, 0 < startValue →
      calculateCAGR 0 startValue startValue = CagrOut.nan) := by
  refine ⟨?_, ?_, ?_, ?_⟩
  · intro days cv sv hd
    have hy : days / 365 ≠ 0 := div_ne_zero hd (by norm_num)
    simp only [calculateCAGR, if_neg hy]
    rw [one_div_div]
  · intro cv sv h1 h2
    have hb : 1 < cv / sv := (one_lt_div h1).mpr h2
    have habs : 1 < |cv / sv| := lt_of_lt_of_le hb (le_abs_self _)
    simp only [calculateCAGR]
    rw [if_pos (show (0 : ℚ) / 365 = 0 by norm_num), if_neg (ne_of_gt h1),
      if_pos habs]
  · intro cv sv h1 h2
    have hsv : (0 : ℚ) < sv := lt_trans h1 h2
    have hb0 : 0 < cv / sv := div_pos h1 hsv
    have hb1 : cv / sv < 1 := (div_lt_one hsv).mpr h2
    have habs : |cv / sv| = cv / sv := abs_of_pos hb0
    have hne : ¬(1 < |cv / sv|) := by rw [habs]; linarith
    have hne1 : ¬(|cv / sv| = 1) := by rw [habs]; exact ne_of_lt hb1
    simp only [calculateCAGR]
    rw [if_pos (show (0 : ℚ) / 365 = 0 by norm_num), if_neg (ne_of_gt hsv),
      if_neg hne, if_neg hne1]
    norm_num
  · intro sv h1
    simp only [calculateCAGR]
    rw [if_pos (show (0 : ℚ) / 365 = 0 by norm_num), if_neg (ne_of_gt h1),
      div_self (ne_of_gt h1), abs_one,
      if_neg (show ¬(1 : ℚ) < 1 by norm_num), if_pos rfl]

/-- Witness for `c5_cagr_branches` at concrete inputs. -/
theorem c5_cagr_branches_witness :
    calculateCAGR 365 2000 1000 = CagrOut.powExpr (2000 / 1000) (365 / 365) ∧
    calculateCAGR 0 2000 1000 = CagrOut.posInf ∧
    calculateCAGR 0 500 1000 = CagrOut.fin (-1) ∧
    calculateCAGR 0 1000 1000 = CagrOut.nan :=
  ⟨c5_cagr_branches.1 365 2000 1000 (by norm_num),
   c5_cagr_branches.2.1 2000 1000 (by norm_num) (by norm_num),
   c5_cagr_branches.2.2.1 500 1000 (by norm_num) (by norm_num),
   c5_cagr_branches.2.2.2 1000 (by norm_num)⟩

/-! ## Claim C9: `getNextMarketOpen` -/

/-- Claim C9, counterexample: day 6 after the epoch is a Wednesday
(`dayOfWeek 6 = 3`), and at 13:00 UTC (= 09:00 EDT, before the 09:30 open)
the function returns day 7 at 13:30 UTC — the *next* day's open, not the
same day's 09:30 as the claim requires for a weekday call before the
open. -/
theorem c9_next_open_counterexample :
    dayOfWeek 6 = 3 ∧ 780 < 810 ∧
    (getNextMarketOpen 6 780).1 = 7 ∧ (7 : ℕ) ≠ 6 := by decide

/-- Claim C9, amended: `getNextMarketOpen` always returns 13:30 UTC (the
code's fixed stand-in for 09:30 ET) of a strictly later calendar day,
never a weekend day; called on a Friday — before or after the open — it
returns the following Monday; but called on any other weekday it returns
the *following* day's open even when the same day's 09:30 is still ahead. -/
theorem c9_next_open_properties (d m : ℕ) :
    (getNextMarketOpen d m).2 = 810 ∧
    dayOfWeek (getNextMarketOpen d m).1 ≠ 0 ∧
    dayOfWeek (getNextMarketOpen d m).1 ≠ 6 ∧
    d < (getNextMarketOpen d m).1 ∧
    (dayOfWeek d = 5 → (getNextMarketOpen d m).1 = d + 3) ∧
    (dayOfWeek (d + 1) ≠ 0 → dayOfWeek (d + 1) ≠ 6 →
      (getNextMarketOpen d m).1 = d + 1) := by
  simp only [getNextMarketOpen, dayOfWeek]
  split_ifs <;> simp_all <;> omega

/-- Witness for `c9_next_open_properties`: day 8 is a Friday
(`dayOfWeek 8 = 5`), and the result is the following Monday, day 11. -/
theorem c9_next_open_properties_witness :
    (getNextMarketOpen 8 0).2 = 810 ∧ (getNextMarketOpen 8 0).1 = 8 + 3 :=
  ⟨(c9_next_open_properties 8 0).1,
   (c9_next_open_properties 8 0).2.2.2.2.1 (by decide)⟩

/-! ## Claim C10: `isMarketOpen` boundaries -/

/-- Claim C10: on a weekday with the testing override disabled,
`isMarketOpen` is true at exactly 09:30 exchange-local time and false at
exactly 16:00, because the comparison is `570 ≤ timeInMinutes` and
`timeInMinutes < 960`. -/
theorem c10_market_open_boundaries (dow : ℕ) (h1 : 1 ≤ dow) (h2 : dow ≤ 5) :
    isMarketOpen false dow 9 30 = true ∧ isMarketOpen false dow 16 0 = false := by
  have h : ¬(dow = 0 ∨ dow = 6) := by omega
  unfold isMarketOpen
  rw [if_neg (by simp), if_neg h, if_neg (by simp), if_neg h]
  norm_num

/-- Witness for `c10_market_open_boundaries` on a Wednesday. -/
theorem c10_market_open_boundaries_witness :
    isMarketOpen false 3 9 30 = true ∧ isMarketOpen false 3 16 0 = false :=
  c10_market_open_boundaries 3 (by norm_num) (by norm_num)

/-! ## Claim C6: trade-tool validation failures submit no order -/

/-- Claim C6: every pre-submission validation failure of the four trade
tools — insufficient buying power for a buy; no position or insufficient
held shares for a sell; equity below $40,000 or buying power below 50% of
the order value for a short sell; no short position or covering more
shares than are short for a cover — returns a rejection string and
submits no order to the brokerage (the `createOrder` call list is empty,
so brokerage state is unchanged). -/
theorem c6_trade_validation_no_order :
    (∀ (account : Account) (price : ℚ) (ticker : String) (shares : ℚ),
      account.buying_power < shares * price →
      buyTool account price ticker shares = ⟨[], true⟩) ∧
    (∀ (positions : List Position) (ticker : String) (shares : ℚ),
      positions.find? (fun p => p.symbol == ticker) = none →
      sellTool positions ticker shares = ⟨[], true⟩) ∧
    (∀ (positions : List Position) (ticker : String) (shares : ℚ)
      (p : Position),
      positions.find? (fun p => p.symbol == ticker) = some p →
      p.qty < shares → sellTool positions ticker shares = ⟨[], true⟩) ∧
    (∀ (account : Account) (price : ℚ) (ticker : String) (shares : ℚ),
      account.portfolio_value < 40000 →
      shortSellTool account price ticker shares = ⟨[], true⟩) ∧
    (∀ (account : Account) (price : ℚ) (ticker : String) (shares : ℚ),
      account.buying_power < shares * price * 0.5 →
      shortSellTool account price ticker shares = ⟨[], true⟩) ∧
    (∀ (positions : List Position) (ticker : String) (shares : ℚ),
      positions.find? (fun p => p.symbol == ticker) = none →
      coverShortTool positions ticker shares = ⟨[], true⟩) ∧
    (∀ (positions : List Position) (ticker : String) (shares : ℚ)
      (p : Position),
      positions.find? (fun p => p.symbol == ticker) = some p →
      0 ≤ p.qty → coverShortTool positions ticker shares = ⟨[], true⟩) ∧
    (∀ (positions : List Position) (ticker : String) (shares : ℚ)
      (p : Position),
      positions.find? (fun p => p.symbol == ticker) = some p →
      p.qty < 0 → |p.qty| < shares →
      coverShortTool positions ticker shares = ⟨[], true⟩) := by
  refine ⟨?_, ?_, ?_, ?_, ?_, ?_, ?_, ?_⟩
  · intro account price ticker shares h
    simp only [buyTool]
    rw [if_pos h]
  · intro positions ticker shares h
    simp only [sellTool, h]
  · intro positions ticker shares p hf hq
    simp only [sellTool, hf]
    rw [if_pos hq]
  · intro account price ticker shares h
    simp only [shortSellTool]
    rw [if_pos h]
  · intro account price ticker shares h
    simp only [shortSellTool]
    by_cases he : account.portfolio_value < 40000
    · rw [if_pos he]
    · rw [if_neg he, if_pos h]
  · intro positions ticker shares h
    simp only [coverShortTool, h]
  · intro positions ticker shares p hf hq
    simp only [coverShortTool, hf]
    rw [if_pos hq]
  · intro positions ticker shares p hf hneg habs
    simp only [coverShortTool, hf]
    rw [if_neg (not_le.mpr hneg), if_pos habs]

/-- Witness for `c6_trade_validation_no_order` at concrete inputs. -/
theorem c6_trade_validation_no_order_witness :
    buyTool ⟨100, 100, 100⟩ 200 "AAPL" 5 = ⟨[], true⟩ ∧
    sellTool [] "AAPL" 5 = ⟨[], true⟩ ∧
    sellTool [⟨"AAPL", 3⟩] "AAPL" 5 = ⟨[], true⟩ ∧
    shortSellTool ⟨100, 100, 100⟩ 200 "AAPL" 5 = ⟨[], true⟩ ∧
    shortSellTool ⟨100, 100, 50000⟩ 200 "AAPL" 5 = ⟨[], true⟩ ∧
    coverShortTool [] "AAPL" 5 = ⟨[], true⟩ ∧
    coverShortTool [⟨"AAPL", 3⟩] "AAPL" 5 = ⟨[], true⟩ ∧
    coverShortTool [⟨"AAPL", -3⟩] "AAPL" 5 = ⟨[], true⟩ :=
  ⟨c6_trade_validation_no_order.1 _ _ _ _ (by norm_num),
   c6_trade_validation_no_order.2.1 _ _ _ rfl,
   c6_trade_validation_no_order.2.2.1 _ _ _ ⟨"AAPL", 3⟩ (by simp [List.find?])
     (by norm_num),
   c6_trade_validation_no_order.2.2.2.1 _ _ _ _ (by norm_num),
   c6_trade_validation_no_order.2.2.2.2.1 _ _ _ _ (by norm_num),
   c6_trade_validation_no_order.2.2.2.2.2.1 _ _ _ rfl,
   c6_trade_validation_no_order.2.2.2.2.2.2.1 _ _ _ ⟨"AAPL", 3⟩
     (by simp [List.find?]) (by norm_num),
   c6_trade_validation_no_order.2.2.2.2.2.2.2 _ _ _ ⟨"AAPL", -3⟩
     (by simp [List.find?]) (by norm_num) (by norm_num)⟩

/-! ## Claim C8: `calculateNetWorth` -/

/-- The `for ... if (shares > 0)` accumulation loop of the net-worth
fallback, rephrased as a sum over the positive holdings. -/
theorem foldl_holdings_sum (f : String → ℚ) :
    ∀ (l : List (String × ℚ)) (a : ℚ),
      l.foldl (fun acc h => if h.2 > 0 then acc + h.2 * f h.1 else acc) a =
        a + ((l.filter fun h => decide (0 < h.2)).map fun h => h.2 * f h.1).sum := by
  intro l
  induction l with
  | nil => intro a; simp
  | cons x xs ih =>
    intro a
    by_cases hx : 0 < x.2
    · simp only [List.foldl_cons, List.filter_cons, gt_iff_lt, hx, if_pos,
        decide_True, if_true, List.map_cons, List.sum_cons, ih]
      ring
    · simp only [List.foldl_cons, List.filter_cons, gt_iff_lt, if_neg hx,
        decide_eq_true_eq, hx, ih]
      simp

/-- Claim C8, counterexample: with the brokerage value call failing, cash
$1000 and a single short holding of −5 shares priced at $100, the fallback
returns $1000 — the short position is *skipped* (`if (shares > 0)`), not
summed as the claim's "including negative/short positions" requires
(which would give $500). -/
theorem c8_short_positions_counterexample :
    calculateNetWorth .err ⟨1000, [("AAPL", -5)], []⟩ (fun _ => 100) = 1000 ∧
    (1000 : ℚ) ≠ 1000 + (-5) * 100 := by
  constructor
  · norm_num [calculateNetWorth, List.foldl, round2]
  · norm_num

/-- Claim C8, amended: `calculateNetWorth` returns the (rounded)
brokerage-reported total portfolio value when that call succeeds, and only
when it fails falls back to `cash + Σ holdings[t] * price(t)` — but the
sum ranges only over holdings with *positive* share counts; negative
(short) positions are skipped. -/
theorem c8_net_worth_fallback :
    (∀ (v : ℚ) (p : Portfolio) (f : String → ℚ),
      calculateNetWorth (.ok v) p f = round2 v) ∧
    (∀ (p : Portfolio) (f : String → ℚ),
      calculateNetWorth .err p f =
        round2 (p.cash +
          ((p.holdings.filter fun h => decide (0 < h.2)).map
            fun h => h.2 * f h.1).sum)) := by
  constructor
  · intro v p f
    rfl
  · intro p f
    simp only [calculateNetWorth]
    rw [foldl_holdings_sum, zero_add]

/-! ## Claims C2 and C7: the price-resolution chain -/

/-- `round2` stays within `[50, 250]` on inputs from `[50, 250)`. -/
theorem round2_bounds (x : ℚ) (h1 : 50 ≤ x) (h2 : x < 250) :
    50 ≤ round2 x ∧ round2 x ≤ 250 := by
  unfold round2
  constructor
  · have h : (5000 : ℤ) ≤ ⌊x * 100 + 1 / 2⌋ := by
      rw [Int.le_floor]
      push_cast
      linarith
    have h' : (5000 : ℚ) ≤ ((⌊x * 100 + 1 / 2⌋ : ℤ) : ℚ) := by exact_mod_cast h
    linarith
  · have h : ⌊x * 100 + 1 / 2⌋ < 25001 := by
      rw [Int.floor_lt]
      push_cast
      linarith
    have h' : ((⌊x * 100 + 1 / 2⌋ : ℤ) : ℚ) ≤ 25000 := by
      exact_mod_cast Int.lt_add_one_iff.mp h
    linarith

/-- Claim C2, counterexample: with both the Alpaca and the Yahoo sources
failing, the ticker `SPY` resolves through the mock-price table to
$550.20, which lies outside the claimed range `[50, 250]`. -/
theorem c2_fallback_range_counterexample :
    getStockPrice ⟨.err, .err, 0⟩ "SPY" = 550.2 ∧ ¬((550.2 : ℚ) ≤ 250) := by
  constructor
  · simp only [getStockPrice]
    rw [show toUpperCase "SPY" = "SPY" from by decide]
    simp [mockPrices]
    norm_num [round2]
  · norm_num

/-- Claim C2, amended: the chained resolver returns the primary mid price
`(bid+ask)/2` (rounded) when the primary quote is available; when the
primary fails it returns the secondary source's positive last-market
price; when both fail it returns a known-ticker table entry (which may lie
outside `[50, 250]`, e.g. SPY ↦ $550.20) or, for tickers not in the
table, `50 + Math.random() * 200`, which does stay within `[50, 250]`.
It never throws (it is a total function of the reified environment) — but
the separate `src/agent.ts` copy of `getStockPrice` has no fallback chain
and re-raises any primary failure. -/
theorem c2_price_chain :
    (∀ (env : PriceEnv) (t : String) (bid ask : ℚ),
      env.alpacaQuote = .ok (some (bid, ask)) →
      getStockPrice env t = round2 ((bid + ask) / 2)) ∧
    (∀ (env : PriceEnv) (t : String) (p : ℚ),
      env.alpacaQuote = .err → env.yahooPrice = .ok (some p) → 0 < p →
      getStockPrice env t = p) ∧
    (∀ (env : PriceEnv) (t : String) (q : ℚ),
      env.alpacaQuote = .err → env.yahooPrice = .err →
      mockPrices (toUpperCase t) = some q →
      getStockPrice env t = round2 q) ∧
    (∀ (env : PriceEnv) (t : String),
      env.alpacaQuote = .err → env.yahooPrice = .err →
      mockPrices (toUpperCase t) = none →
      0 ≤ env.rand → env.rand < 1 →
      50 ≤ getStockPrice env t ∧ getStockPrice env t ≤ 250) ∧
    getStockPriceMain .err = .error () := by
  refine ⟨?_, ?_, ?_, ?_, rfl⟩
  · intro env t bid ask h
    obtain ⟨a, y, r⟩ := env
    simp only at h
    subst h
    rfl
  · intro env t p h1 h2 hp
    obtain ⟨a, y, r⟩ := env
    simp only at h1 h2
    subst h1
    subst h2
    simp only [getStockPrice]
    rw [if_pos hp]
  · intro env t q h1 h2 hq
    obtain ⟨a, y, r⟩ := env
    simp only at h1 h2
    subst h1
    subst h2
    simp only [getStockPrice, hq, Option.getD_some]
  · intro env t h1 h2 hq hr0 hr1
    obtain ⟨a, y, r⟩ := env
    simp only at h1 h2 hr0 hr1
    subst h1
    subst h2
    simp only [getStockPrice, hq, Option.getD_none]
    refine round2_bounds _ ?_ ?_
    · have : 0 ≤ r * 200 := mul_nonneg hr0 (by norm_num)
      linarith
    · have : r * 200 < 1 * 200 := by
        exact mul_lt_mul_of_pos_right hr1 (by norm_num)
      linarith

/-- Witness for `c2_price_chain` at concrete environments. -/
theorem c2_price_chain_witness :
    getStockPrice ⟨.ok (some (100, 102)), .err, 0⟩ "AAPL" =
      round2 ((100 + 102) / 2) ∧
    getStockPrice ⟨.err, .ok (some 123), 0⟩ "AAPL" = 123 ∧
    getStockPrice ⟨.err, .err, 0⟩ "NVDA" = round2 126.50 ∧
    (50 ≤ getStockPrice ⟨.err, .err, 1 / 2⟩ "ZZZZ" ∧
      getStockPrice ⟨.err, .err, 1 / 2⟩ "ZZZZ" ≤ 250) :=
  ⟨c2_price_chain.1 _ "AAPL" 100 102 rfl,
   c2_price_chain.2.1 _ "AAPL" 123 rfl rfl (by norm_num),
   c2_price_chain.2.2.1 _ "NVDA" 126.50 rfl rfl
     (by rw [show toUpperCase "NVDA" = "NVDA" from by decide]
         simp [mockPrices]),
   c2_price_chain.2.2.2.1 _ "ZZZZ" rfl rfl
     (by rw [show toUpperCase "ZZZZ" = "ZZZZ" from by decide]
         simp [mockPrices])
     (by norm_num) (by norm_num)⟩

/-- Claim C7, counterexample: when the primary fails and Yahoo reports
$123.456, the resolver returns $123.456 unrounded — and no integer number
of cents equals it, so the secondary branch does *not* round to 2 decimal
places. -/
theorem c7_yahoo_unrounded_counterexample :
    getStockPrice ⟨.err, .ok (some (123456 / 1000)), 0⟩ "AAPL" =
      123456 / 1000 ∧
    ¬∃ n : ℤ, (123456 / 1000 : ℚ) = n / 100 := by
  constructor
  · simp only [getStockPrice]
    rw [if_pos (by norm_num : (123456 : ℚ) / 1000 > 0)]
  · rintro ⟨n, hn⟩
    have h : (123456 : ℚ) * 100 = n * 1000 := by
      field_simp at hn
      linarith
    have h' : (123456 : ℤ) * 100 = n * 1000 := by exact_mod_cast h
    omega

/-- Claim C7, amended: the primary branch and the synthetic-fallback
branch of the resolver round to 2 decimal places (the result is an integer
number of cents), but the secondary (Yahoo) branch returns the last-market
price exactly as received, unrounded. -/
theorem c7_rounding_branches :
    (∀ (env : PriceEnv) (t : String) (bid ask : ℚ),
      env.alpacaQuote = .ok (some (bid, ask)) →
      ∃ n : ℤ, getStockPrice env t = n / 100) ∧
    (∀ (env : PriceEnv) (t : String),
      env.alpacaQuote = .err → env.yahooPrice = .err →
      ∃ n : ℤ, getStockPrice env t = n / 100) ∧
    (∀ (env : PriceEnv) (t : String) (p : ℚ),
      env.alpacaQuote = .err → env.yahooPrice = .ok (some p) → 0 < p →
      getStockPrice env t = p) := by
  refine ⟨?_, ?_, ?_⟩
  · intro env t bid ask h
    obtain ⟨a, y, r⟩ := env
    simp only at h
    subst h
    exact ⟨⌊(bid + ask) / 2 * 100 + 1 / 2⌋, rfl⟩
  · intro env t h1 h2
    obtain ⟨a, y, r⟩ := env
    simp only at h1 h2
    subst h1
    subst h2
    exact ⟨⌊(mockPrices (toUpperCase t)).getD (50 + r * 200) * 100 + 1 / 2⌋, rfl⟩
  · intro env t p h1 h2 hp
    obtain ⟨a, y, r⟩ := env
    simp only at h1 h2
    subst h1
    subst h2
    simp only [getStockPrice]
    rw [if_pos hp]

/-- Witness for `c7_rounding_branches` at concrete environments. -/
theorem c7_rounding_branches_witness :
    (∃ n : ℤ, getStockPrice ⟨.ok (some (100, 103)), .err, 0⟩ "MSFT" = n / 100) ∧
    (∃ n : ℤ, getStockPrice ⟨.err, .err, 0⟩ "MSFT" = n / 100) ∧
    getStockPrice ⟨.err, .ok (some 7), 0⟩ "MSFT" = 7 :=
  ⟨c7_rounding_branches.1 _ "MSFT" 100 103 rfl,
   c7_rounding_branches.2.1 _ "MSFT" rfl rfl,
   c7_rounding_branches.2.2 _ "MSFT" 7 rfl rfl (by norm_num)⟩

/-! ## Claim C4: thread corruption checks -/

/-- Claim C4, counterexample: a thread of 51 harmless `message` items
exceeds the 50-item ceiling, and `loadThread` returns an empty thread —
but it writes *no* quarantine backup copy (that branch only logs and
returns `[]`), so the ceiling case does not "copy the raw thread file to a
timestamped quarantine file" as claimed. -/
theorem c4_size_ceiling_counterexample :
    loadThread (List.replicate 51 ⟨"message", none, none⟩) = ⟨[], false⟩ ∧
    50 < (List.replicate 51 (⟨"message", none, none⟩ : ThreadItem)).length ∧
    (false : Bool) ≠ true := by
  refine ⟨?_, by simp, by simp⟩
  have hm : hasReasoningMismatch (List.replicate 51 ⟨"message", none, none⟩) = false := by
    rw [hasReasoningMismatch]
    simp [List.filter_replicate]
  have hc : hasCorruption (List.replicate 51 ⟨"message", none, none⟩) = false := by
    rw [hasCorruption]
    rw [List.any_eq_false]
    intro x hx
    rw [List.eq_of_mem_replicate hx]
    simp
  rw [loadThread, if_neg (by rw [hm]; exact Bool.false_ne_true),
    if_neg (by rw [hc]; exact Bool.false_ne_true), if_pos (by simp)]

/-- Claim C4, amended: on load, an orphaned function-result item (no
matching function-call id) and a `fc_`-style function-call item missing
its correlating reasoning item each cause the thread store to copy the raw
thread file to a timestamped quarantine file and return an empty thread;
a total item count exceeding 50 also resets to an empty thread, but
*without* writing a quarantine copy. -/
theorem c4_corruption_checks :
    (∀ t : List ThreadItem,
      (∃ item ∈ t, item.itemType = "function_call_result" ∧
        ∀ c ∈ t, ¬(c.callId = item.callId ∧ c.itemType = "function_call")) →
      loadThread t = ⟨[], true⟩) ∧
    (∀ t : List ThreadItem,
      (∃ fc ∈ t, fc.itemType = "function_call" ∧ ∃ i, fc.id = some i ∧
        strStartsWith i "fc_" = true ∧
        ∀ rs ∈ t, rs.itemType = "reasoning" →
          rs.id ≠ some ("rs_" ++ strDrop i 3)) →
      loadThread t = ⟨[], true⟩) ∧
    (∀ t : List ThreadItem, 50 < t.length → (loadThread t).thread = []) := by
  refine ⟨?_, ?_, ?_⟩
  · rintro t ⟨item, hmem, htype, hnone⟩
    have hc : hasCorruption t = true := by
      rw [hasCorruption, List.any_eq_true]
      refine ⟨item, hmem, ?_⟩
      simp only [Bool.or_eq_true, Bool.and_eq_true, beq_iff_eq,
        Bool.not_eq_true']
      right
      refine ⟨htype, ?_⟩
      rw [List.any_eq_false]
      intro c hcmem
      intro hb
      apply hnone c hcmem
      simp only [Bool.and_eq_true, beq_iff_eq] at hb
      exact hb
    rw [loadThread]
    by_cases hm : hasReasoningMismatch t = true
    · rw [if_pos hm]
    · rw [if_neg hm, if_pos hc]
  · rintro t ⟨fc, hmem, htype, i, hid, hstart, hnors⟩
    have hm : hasReasoningMismatch t = true := by
      rw [hasReasoningMismatch]
      simp only
      rw [List.any_eq_true]
      refine ⟨fc, List.mem_filter.mpr ⟨hmem, by simp [htype]⟩, ?_⟩
      rw [hid]
      simp only [hstart, Bool.not_true, Bool.false_eq_true, if_false,
        Bool.not_eq_true']
      rw [List.any_eq_false]
      intro rs hrsmem
      obtain ⟨hrst, hrstype⟩ := List.mem_filter.mp hrsmem
      intro hb
      rw [beq_iff_eq] at hb
      exact hnors rs hrst (by simpa using hrstype) hb
    rw [loadThread, if_pos hm]
  · intro t hlen
    rw [loadThread]
    split_ifs <;> rfl

/-- Witness for `c4_corruption_checks` at concrete threads. -/
theorem c4_corruption_checks_witness :
    loadThread [⟨"function_call_result", some "x", none⟩] = ⟨[], true⟩ ∧
    loadThread [⟨"function_call", some "y", some "fc_1"⟩] = ⟨[], true⟩ ∧
    (loadThread (List.replicate 51 ⟨"message", none, none⟩)).thread = [] :=
  ⟨c4_corruption_checks.1 _
    ⟨⟨"function_call_result", some "x", none⟩, by simp, rfl, by simp⟩,
   c4_corruption_checks.2.1 _
    ⟨⟨"function_call", some "y", some "fc_1"⟩, by simp, rfl, "fc_1", rfl,
      by decide, by simp⟩,
   c4_corruption_checks.2.2 _ (by simp)⟩

/-! ## Claim C3: `withRetry` -/

/-- Reindexing a shifted `List.range` map by one position. -/
theorem range_map_shift (g : ℕ → ℚ) (n i : ℕ) :
    g i :: (List.range n).map (fun k => g (i + 1 + k)) =
      (List.range (n + 1)).map fun k => g (i + k) := by
  rw [List.range_succ_eq_map]
  simp only [List.map_cons, List.map_map, Nat.add_zero]
  refine congrArg (g i :: ·) ?_
  refine List.map_congr_left ?_
  intro a _
  simp only [Function.comp]
  congr 1
  omega

/-- The retry loop when every remaining attempt fails with a retryable
error: it sleeps through the whole backoff schedule and throws the last
error. -/
theorem withRetryAux_all_err {α : Type} (runs : ℕ → Except JsError α)
    (delay : ℚ) (rand : ℕ → ℚ) (e : ℕ → JsError) :
    ∀ (fuel : ℕ), 1 ≤ fuel → ∀ (i : ℕ) (acc : List ℚ) (last : Option JsError),
      (∀ j, i ≤ j → j < i + fuel → runs j = .error (e j) ∧ isRetryable (e j) = true) →
      withRetryAux runs delay rand fuel i acc last =
        .thrown (some (e (i + fuel - 1)))
          (acc ++ (List.range fuel).map fun k => delay * 2 ^ (i + k) + rand (i + k)) := by
  intro fuel
  induction fuel with
  | zero => intro h; exact absurd h (by omega)
  | succ n ih =>
    intro _ i acc last hall
    obtain ⟨herr, hret⟩ := hall i (le_refl i) (by omega)
    simp only [withRetryAux]
    rw [herr]
    simp only
    rw [if_pos hret]
    by_cases hn : 1 ≤ n
    · rw [ih hn (i + 1) _ _ (fun j hj1 hj2 => hall j (by omega) (by omega))]
      refine congrArg₂ _
        (by rw [show i + 1 + n - 1 = i + (n + 1) - 1 by omega]) ?_
      rw [List.append_assoc, List.singleton_append,
        range_map_shift (fun j => delay * 2 ^ j + rand j) n i]
    · have hn0 : n = 0 := by omega
      subst hn0
      simp only [withRetryAux]
      simp [List.range_succ]

/-- The retry loop when the first `k` attempts fail retryably and attempt
`k` succeeds: the success value is returned after `k` backoff sleeps. -/
theorem withRetryAux_ok {α : Type} (runs : ℕ → Except JsError α)
    (delay : ℚ) (rand : ℕ → ℚ) (e : ℕ → JsError) (v : α) :
    ∀ (k fuel i : ℕ) (acc : List ℚ) (last : Option JsError), k < fuel →
      (∀ j, i ≤ j → j < i + k → runs j = .error (e j) ∧ isRetryable (e j) = true) →
      runs (i + k) = .ok v →
      withRetryAux runs delay rand fuel i acc last =
        .ok v (acc ++ (List.range k).map fun j => delay * 2 ^ (i + j) + rand (i + j)) := by
  intro k
  induction k with
  | zero =>
    intro fuel i acc last hk _ hok
    obtain ⟨f, rfl⟩ : ∃ f, fuel = f + 1 := ⟨fuel - 1, by omega⟩
    have hok' : runs i = .ok v := hok
    simp only [withRetryAux]
    rw [hok']
    simp
  | succ n ih =>
    intro fuel i acc last hk hall hok
    obtain ⟨f, rfl⟩ : ∃ f, fuel = f + 1 := ⟨fuel - 1, by omega⟩
    obtain ⟨herr, hret⟩ := hall i (le_refl i) (by omega)
    simp only [withRetryAux]
    rw [herr]
    simp only
    rw [if_pos hret]
    have hok' : runs (i + 1 + n) = .ok v := by
      rw [show i + 1 + n = i + (n + 1) by omega]
      exact hok
    rw [ih f (i + 1) _ _ (by omega) (fun j h1 h2 => hall j (by omega) (by omega)) hok']
    refine congrArg _ ?_
    rw [List.append_assoc, List.singleton_append,
      range_map_shift (fun j => delay * 2 ^ j + rand j) n i]

/-- Claim C3: `withRetry` retries only on errors whose (structured or
message-recovered) status is 429 or 5xx; any other error is re-thrown
immediately with no backoff sleeps; when every attempt fails retryably the
last error is re-thrown after sleeping `delay * 2^i + jitter(i)` before
each retry (`jitter(i) = Math.random() * 1000 ∈ [0, 1000)`), each wait
being at least `delay * 2^i`; and a success after `k` retryable failures
returns the value after exactly `k` such sleeps. -/
theorem c3_withRetry_policy :
    (∀ (e : JsError) (s : ℕ), effectiveStatus e = some s →
      (isRetryable e = true ↔ (s = 429 ∨ (500 ≤ s ∧ s < 600)))) ∧
    (∀ e : JsError, effectiveStatus e = none → isRetryable e = false) ∧
    (∀ (α : Type) (runs : ℕ → Except JsError α) (retries : ℕ) (delay : ℚ)
      (rand : ℕ → ℚ) (e : JsError), 1 ≤ retries → runs 0 = .error e →
      isRetryable e = false →
      withRetry runs retries delay rand = .thrown (some e) []) ∧
    (∀ (α : Type) (runs : ℕ → Except JsError α) (retries : ℕ) (delay : ℚ)
      (rand : ℕ → ℚ) (e : ℕ → JsError), 1 ≤ retries →
      (∀ i, i < retries → runs i = .error (e i) ∧ isRetryable (e i) = true) →
      withRetry runs retries delay rand =
        .thrown (some (e (retries - 1)))
          ((List.range retries).map fun i => delay * 2 ^ i + rand i)) ∧
    (∀ (α : Type) (runs : ℕ → Except JsError α) (retries k : ℕ) (delay : ℚ)
      (rand : ℕ → ℚ) (v : α) (e : ℕ → JsError), k < retries →
      (∀ i, i < k → runs i = .error (e i) ∧ isRetryable (e i) = true) →
      runs k = .ok v →
      withRetry runs retries delay rand =
        .ok v ((List.range k).map fun i => delay * 2 ^ i + rand i)) ∧
    (∀ (delay : ℚ) (rand : ℕ → ℚ) (i : ℕ), 0 ≤ rand i →
      delay * 2 ^ i ≤ delay * 2 ^ i + rand i) := by
  refine ⟨?_, ?_, ?_, ?_, ?_, ?_⟩
  · intro e s h
    rw [isRetryable, h]
    simp only [Bool.or_eq_true, beq_iff_eq, Bool.and_eq_true,
      decide_eq_true_eq]
  · intro e h
    rw [isRetryable, h]
  · intro α runs retries delay rand e h1 herr hret
    obtain ⟨n, rfl⟩ : ∃ n, retries = n + 1 := ⟨retries - 1, by omega⟩
    rw [withRetry]
    simp only [withRetryAux]
    rw [herr]
    simp only
    rw [if_neg (by rw [hret]; exact Bool.false_ne_true)]
  · intro α runs retries delay rand e h1 hall
    rw [withRetry,
      withRetryAux_all_err runs delay rand e retries h1 0 [] none
        (fun j _ hj2 => hall j (by omega))]
    simp only [Nat.zero_add, List.nil_append]
  · intro α runs retries k delay rand v e hk hall hok
    rw [withRetry,
      withRetryAux_ok runs delay rand e v k retries 0 [] none hk
        (fun j _ hj2 => hall j (by omega)) (by simpa using hok)]
    simp only [Nat.zero_add, List.nil_append]
  · intro delay rand i h
    linarith

/-- Witness for `c3_withRetry_policy`: a 400-status error is thrown
immediately with no sleeps; a run of all-500 failures exhausts one attempt
and throws after one backoff sleep; three failures carrying
`"503 status code"` only in the message followed by a success return the
value after three sleeps. -/
theorem c3_withRetry_policy_witness :
    withRetry (fun _ => (Except.error ⟨some 400, none⟩ : Except JsError ℕ))
        5 2000 (fun _ => 0) = .thrown (some ⟨some 400, none⟩) [] ∧
    withRetry (fun _ => (Except.error ⟨some 500, none⟩ : Except JsError ℕ))
        1 2000 (fun _ => 1) =
      .thrown (some ⟨some 500, none⟩)
        ((List.range 1).map fun i => 2000 * 2 ^ i + 1) ∧
    withRetry
        (fun i =>
          if i < 3 then
            (Except.error ⟨none, some "Request failed with 503 status code"⟩ :
              Except JsError ℕ)
          else .ok 7)
        5 2000 (fun _ => 0) =
      .ok 7 ((List.range 3).map fun i => 2000 * 2 ^ i + 0) :=
  ⟨c3_withRetry_policy.2.2.1 ℕ _ 5 2000 _ ⟨some 400, none⟩ (by norm_num) rfl
    (by decide),
   c3_withRetry_policy.2.2.2.1 ℕ _ 1 2000 _ (fun _ => ⟨some 500, none⟩)
    (by norm_num)
    (fun i _ =>
      ⟨rfl, show isRetryable ⟨some 500, none⟩ = true from by decide⟩),
   c3_withRetry_policy.2.2.2.2.1 ℕ _ 5 3 2000 _ 7
    (fun _ => ⟨none, some "Request failed with 503 status code"⟩)
    (by norm_num)
    (fun i hi =>
      ⟨by rw [if_pos hi],
       show isRetryable ⟨none, some "Request failed with 503 status code"⟩ = true
         from by decide⟩)
    (by norm_num)⟩
